import Mathlib

/-!
# VISMA dataset loader (`src/dataloader.cpp`, namespace `feh`)

A shallow embedding of `LoadEdgeMap`, the name check of `LoadMeshDatabase`, both
overloads of `VlslamDatasetLoader::Grab`, `GrabPointCloud` and `GrabSparseDepth`,
followed by the properties established about them.

Conventions of the embedding.

* Floating-point scalars (`ftype`, the protobuf `float`/`double` fields) are an abstract
  type `F`: the code only copies them, hands them to the geometry library, or truncates
  them to `int`.  Copies between the protobuf scalar type and `ftype` are taken to
  preserve the value.
* Everything the translation unit uses but does not define (the `SE3`/`SO3` classes,
  OpenCV's `imread` and `convertTo`, the protobuf parsers, the contents of the files) is
  collected in the structure `Ext` and passed as a parameter.
* An execution that leaves the well-defined behaviour of the source (an index past the
  end of a container, a read past a buffer) or that ends the process (`LOG(FATAL)`,
  a failed `CHECK`, an uncaught exception) is an `Except.error` carrying a `Fault`.
* `std::unordered_map<int64_t, V>` is an association list with unique keys; only
  `count`, `at` and `operator[]`-assignment are used by the code, and every statement
  below is about lookups, not about iteration order.
-/

namespace feh

/-! ## Data model -/

/-- Ways in which an execution stops without returning a value. -/
inductive Fault where
  /-- The `png_files_[i]` access with `i` outside the vector. -/
  | pngIndex
  /-- The `dataset_.mutable_packets(i)` access with `i` outside the repeated field. -/
  | packetIndex
  /-- The `img.at<cv::Vec3b>(row, col)` access outside the image. -/
  | imageIndex
  /-- An access `edge_files_[i]` or `bbox_files_[i]` with `i` outside the vector. -/
  | pathIndex
  /-- A conversion that reads the edge buffer past its end. -/
  | edgeBuffer
  /-- The `LOG(FATAL)` after `LoadEdgeMap` returned false. -/
  | fatalEdgeMap
  /-- The `CHECK(in_file.is_open())` on a bounding-box file that cannot be opened. -/
  | fatalBBox
  /-- The `std::out_of_range` thrown by `substr` when its position exceeds the size. -/
  | substrOutOfRange
  /-- The `CHECK_STREQ` on the category file name failed. -/
  | checkStreq
  /-- The `std::out_of_range` thrown by `unordered_map::at` on an absent key. -/
  | mapAt
  deriving DecidableEq

/-- Three scalars: `Vec3f`, or the three entries `xw(0)`, `xw(1)`, `xw(2)`. -/
abbrev Vec3 (F : Type) := F × F × F

/-- A `cv::Vec3b`: three `unsigned char` channels, each in `0..255`. -/
abbrev Vec3b := Nat × Nat × Nat

/-- Modelled from the spec: the enum `vlslam_pb::Feature_Status` is declared in the
generated protobuf header, which is absent; the spec lists it as INSTATE, GOODDROP and
other, non-retained states. -/
inductive Feature_Status where
  | INSTATE
  | GOODDROP
  | OTHER
  deriving DecidableEq

/-- A `vlslam_pb::Feature`: `id()`, `status()`, `xw(0..2)` and `xp(0..1)`. -/
structure Feature (F : Type) where
  id : Int
  status : Feature_Status
  xw : Vec3 F
  xp : F × F
  deriving DecidableEq

/-- A `vlslam_pb::Packet`: the 12 entries of `gwc`, `wg(0)`, `wg(1)` and `features()`. -/
structure Packet (F : Type) where
  gwc : List F
  wg : F × F
  features : List (Feature F)
  deriving DecidableEq

/-- A `vlslam_pb::EdgeMap` as parsed: `rows()`, `cols()` and the flat `data()` buffer.
The dimensions are taken non-negative. -/
structure EdgeMap (F : Type) where
  rows : Nat
  cols : Nat
  data : List F
  deriving DecidableEq

/-- A single-channel 8-bit `cv::Mat` (`CV_8UC1`), row-major. -/
structure Mat8 where
  rows : Nat
  cols : Nat
  data : List Nat
  deriving DecidableEq

/-- A three-channel 8-bit `cv::Mat` (what `cv::imread` returns), row-major. -/
structure Image where
  rows : Nat
  cols : Nat
  data : List Vec3b
  deriving DecidableEq

/-- The access `img.at<cv::Vec3b>(row, col)`; `none` when the position is outside the
image, where the source has no defined behaviour. -/
def Image.atVec3b (img : Image) (row col : Int) : Option Vec3b :=
  if 0 ≤ row ∧ row < img.rows ∧ 0 ≤ col ∧ col < img.cols then
    img.data[row.toNat * img.cols + col.toNat]?
  else none

/-- What the translation unit takes from elsewhere: the geometry classes, the scalar
conversions, OpenCV and the contents of the files on disk. -/
structure Ext (F SE3 SO3 BBoxList : Type) where
  /-- The constructor `SE3::from_matrix3x4` applied to the row-major 3x4 buffer. -/
  from_matrix3x4 : List F → SE3
  /-- The method `SE3::inv`. -/
  inv : SE3 → SE3
  /-- The product `g * X` of a transform and a point. -/
  act : SE3 → Vec3 F → Vec3 F
  /-- The exponential map `SO3f::exp`. -/
  exp : Vec3 F → SO3
  /-- The literal `0` as a scalar. -/
  zero : F
  /-- The conversion `int(x)`. -/
  toInt : F → Int
  /-- One pixel of `convertTo(edge, CV_8UC1, 255.0f)`. -/
  to8U : F → Nat
  /-- The call `cv::imread(path)`; it never throws and gives an empty image on failure. -/
  imread : String → Image
  /-- The message left in `edgemap` by `ParseFromIstream` on the file at a path. -/
  parseEdgeMap : String → EdgeMap F
  /-- The list parsed from a bounding-box file, `none` when it cannot be opened. -/
  parseBBoxList : String → Option BBoxList
  /-- What `LoadEdgeMap` yields on a record whose `rows * cols` exceeds the length of
  its buffer, given the previous value of `edge`: the flag and the new `edge` when the
  OpenCV calls complete or throw into the `catch` branch, `none` when the conversion
  reads past the buffer. -/
  edgeOverrun : EdgeMap F → Mat8 → Option (Bool × Mat8)
  /-- The entries `LoadJson` finds in the file `StrFormat` names for a root and a
  category file. -/
  jsonEntries : String → String → List String

/-! ## `std::unordered_map<int64_t, V>` -/

/-- The map type: an association list in which every key occurs once. -/
abbrev unordered_map (V : Type) := List (Int × V)

namespace unordered_map

/-- The lookup behind `count` and `at`. -/
def find {V : Type} : unordered_map V → Int → Option V
  | [], _ => none
  | (k, v) :: t, key => if k = key then some v else find t key

/-- The member `count(key)`: 1 when the key is present, 0 otherwise. -/
def count {V : Type} (m : unordered_map V) (key : Int) : Nat :=
  if (find m key).isSome then 1 else 0

/-- The assignment `m[key] = v`: overwrite the entry of `key`, or create it. -/
def assign {V : Type} : unordered_map V → Int → V → unordered_map V
  | [], key, v => [(key, v)]
  | (k, w) :: t, key, v => if k = key then (k, v) :: t else (k, w) :: assign t key v

/-- The keys, in the order of the list. -/
def keys {V : Type} (m : unordered_map V) : List Int := m.map Prod.fst

end unordered_map

/-! ## The loader -/

/-- The members of `VlslamDatasetLoader` the methods read: the parsed log and the three
path lists.  `size_` is set once by the constructor to `png_files_.size()`. -/
structure VlslamDatasetLoader (F : Type) where
  dataset_ : List (Packet F)
  png_files_ : List String
  edge_files_ : List String
  bbox_files_ : List String
  deriving DecidableEq

/-- The member `size_`, assigned `png_files_.size()` at the end of the constructor. -/
def VlslamDatasetLoader.size_ {F : Type} (L : VlslamDatasetLoader F) : Int :=
  L.png_files_.length

/-- The access `dataset_.mutable_packets(i)`. -/
def VlslamDatasetLoader.mutable_packets {F : Type} (L : VlslamDatasetLoader F) (i : Int) :
    Except Fault (Packet F) :=
  if 0 ≤ i then
    match L.dataset_[i.toNat]? with
    | some p => .ok p
    | none => .error .packetIndex
  else .error .packetIndex

/-- The test `f.status() == INSTATE || f.status() == GOODDROP`. -/
def qualifying {F : Type} (f : Feature F) : Bool :=
  f.status == Feature_Status.INSTATE || f.status == Feature_Status.GOODDROP

/-! ## `GrabPointCloud` -/

/-- A `std::array<ftype, 6>` of the point cloud: slots 0..2 hold the world position,
slots 3..5 the colour.  Every value written to slots 3..5 is a `static_cast<ftype>` of an
`unsigned char`, an integer in `0..255` that `ftype` holds exactly, so they are kept as
naturals. -/
structure PointColor (F : Type) where
  xw : Vec3 F
  color : Vec3b
  deriving DecidableEq

/-- The conversion back to `unsigned char` at the end of `color[k] += ...`.  Values up
to 255 are kept; above 255 the conversion from `ftype` has no defined result in C++, and
the embedding takes the low 8 bits, which is what the conversion through a 32-bit integer
register gives on the usual targets. -/
def toUchar (x : Nat) : Nat := x % 2 ^ 8

/-- The two statements `color[k] += out.at(id)[3 + k]; color[k] >>= 1;` on one channel:
the sum is formed in `ftype`, stored back into the `unsigned char`, then shifted. -/
def mergeChannel (sampled stored : Nat) : Nat :=
  toUchar (sampled + stored) >>> 1

/-- The body of the loop of `GrabPointCloud` for one feature. -/
def pointCloudStep {F SE3 SO3 B : Type} (E : Ext F SE3 SO3 B) (img : Image)
    (out : unordered_map (PointColor F)) (f : Feature F) :
    Except Fault (unordered_map (PointColor F)) :=
  if qualifying f then
    match img.atVec3b (E.toInt f.xp.2) (E.toInt f.xp.1) with
    | none => .error .imageIndex
    | some color =>
      if unordered_map.count out f.id ≠ 0 then
        match unordered_map.find out f.id with
        | none => .error .mapAt
        | some old =>
          let c0 := mergeChannel color.1 old.color.1
          let c1 := mergeChannel color.2.1 old.color.2.1
          let c2 := mergeChannel color.2.2 old.color.2.2
          .ok (unordered_map.assign out f.id ⟨f.xw, (c0, c1, c2)⟩)
      else
        .ok (unordered_map.assign out f.id ⟨f.xw, color⟩)
  else .ok out

/-- The loop `for (auto f : packet_ptr->features())` of `GrabPointCloud`. -/
def pointCloudLoop {F SE3 SO3 B : Type} (E : Ext F SE3 SO3 B) (img : Image) :
    List (Feature F) → unordered_map (PointColor F) →
      Except Fault (unordered_map (PointColor F))
  | [], out => .ok out
  | f :: fs, out =>
    match pointCloudStep E img out f with
    | .error e => .error e
    | .ok out' => pointCloudLoop E img fs out'

/-- The method `VlslamDatasetLoader::GrabPointCloud(i, img)`. -/
def GrabPointCloud {F SE3 SO3 B : Type} (E : Ext F SE3 SO3 B) (L : VlslamDatasetLoader F)
    (i : Int) (img : Image) : Except Fault (unordered_map (PointColor F)) :=
  match L.mutable_packets i with
  | .error e => .error e
  | .ok packet => pointCloudLoop E img packet.features []

/-! ## `GrabSparseDepth` -/

/-- The body of the loop of `GrabSparseDepth` for one feature; both branches of the
`if (out.count(f.id()))` perform the same assignment. -/
def sparseDepthStep {F SE3 SO3 B : Type} (E : Ext F SE3 SO3 B) (gcw : SE3)
    (out : unordered_map (Vec3 F)) (f : Feature F) : unordered_map (Vec3 F) :=
  if qualifying f then
    let Xc := E.act gcw f.xw
    let z := Xc.2.2
    if unordered_map.count out f.id ≠ 0 then
      unordered_map.assign out f.id (f.xp.1, f.xp.2, z)
    else
      unordered_map.assign out f.id (f.xp.1, f.xp.2, z)
  else out

/-- The method `VlslamDatasetLoader::GrabSparseDepth(i)`. -/
def GrabSparseDepth {F SE3 SO3 B : Type} (E : Ext F SE3 SO3 B) (L : VlslamDatasetLoader F)
    (i : Int) : Except Fault (unordered_map (Vec3 F)) :=
  match L.mutable_packets i with
  | .error e => .error e
  | .ok packet =>
    let gwc := E.from_matrix3x4 packet.gwc
    let gcw := E.inv gwc
    .ok (packet.features.foldl (sparseDepthStep E gcw) [])

/-! ## `LoadEdgeMap` -/

/-- The two statements `edge = cv::Mat(rows, cols, CV_32FC1, data)` and
`edge.convertTo(edge, CV_8UC1, 255.0f)` on a buffer that holds at least `rows * cols`
floats: an image of the shape of the record, converted from the first `rows * cols`. -/
def edgeToMat8 {F SE3 SO3 B : Type} (E : Ext F SE3 SO3 B) (edgemap : EdgeMap F) : Mat8 :=
  ⟨edgemap.rows, edgemap.cols,
    (edgemap.data.take (edgemap.rows * edgemap.cols)).map E.to8U⟩

/-- The function `LoadEdgeMap(filename, edge)`: the pair of the returned flag and the
new value of `edge`.  The message is whatever `ParseFromIstream` left (its result is not
tested).  The `cv::Mat` header is built over the buffer with the shape of the message and
converted pixel by pixel; no statement compares `rows * cols` with the buffer length.
When the buffer is at least `rows * cols` long the calls complete and `true` is
returned. -/
def LoadEdgeMap {F SE3 SO3 B : Type} (E : Ext F SE3 SO3 B) (filename : String)
    (edge : Mat8) : Except Fault (Bool × Mat8) :=
  let edgemap := E.parseEdgeMap filename
  if edgemap.rows * edgemap.cols ≤ edgemap.data.length then
    .ok (true, edgeToMat8 E edgemap)
  else
    match E.edgeOverrun edgemap edge with
    | some r => .ok r
    | none => .error .edgeBuffer

/-! ## `Grab` -/

/-- The reference parameters of `Grab`. -/
structure Outputs (SE3 SO3 BBoxList : Type) where
  image : Image
  edgemap : Mat8
  bboxlist : BBoxList
  gwc : SE3
  Rg : SO3

/-- What a call of `Grab` touches outside its parameters, in order. -/
inductive Event where
  /-- The line `std::cout << i`. -/
  | print (i : Int)
  /-- The fetch of packet `i` from the parsed log. -/
  | packet (i : Int)
  /-- The read of an image file. -/
  | image (path : String)
  /-- The read of an edge-map file. -/
  | edge (path : String)
  /-- The read of a bounding-box file. -/
  | bbox (path : String)
  deriving DecidableEq

/-- The access `v[i]` on a `std::vector` with an `int` index. -/
def vectorAt {α : Type} (v : List α) (i : Int) (e : Fault) : Except Fault α :=
  if 0 ≤ i then
    match v[i.toNat]? with
    | some x => .ok x
    | none => .error e
  else .error e

/-- The block `if (i < edge_files_.size()) ...` of `Grab`: the new edge map and the
events.  The comparison is reached with `0 <= i` only, where converting `i` to the
unsigned size type keeps its value. -/
def grabEdge {F SE3 SO3 B : Type} (E : Ext F SE3 SO3 B) (L : VlslamDatasetLoader F)
    (i : Int) (edgemap : Mat8) : Except Fault (Mat8 × List Event) :=
  if i < L.edge_files_.length then
    match vectorAt L.edge_files_ i .pathIndex with
    | .error e => .error e
    | .ok edge_file =>
      match LoadEdgeMap E edge_file edgemap with
      | .error e => .error e
      | .ok (ok, edgemap') =>
        if !ok then .error .fatalEdgeMap else .ok (edgemap', [Event.edge edge_file])
  else .ok (edgemap, [])

/-- The block `if (i < bbox_files_.size()) ...` of `Grab`. -/
def grabBBox {F SE3 SO3 B : Type} (E : Ext F SE3 SO3 B) (L : VlslamDatasetLoader F)
    (i : Int) (bboxlist : B) : Except Fault (B × List Event) :=
  if i < L.bbox_files_.length then
    match vectorAt L.bbox_files_ i .pathIndex with
    | .error e => .error e
    | .ok bbox_file =>
      match E.parseBBoxList bbox_file with
      | none => .error .fatalBBox
      | some b => .ok (b, [Event.bbox bbox_file])
  else .ok (bboxlist, [])

/-- The six-argument `VlslamDatasetLoader::Grab`: the returned flag, the values of the
reference parameters on return and the events of the call.  The first test is
`i >= size_ || i < 0`; whether `size_` is declared signed or unsigned, it holds exactly
for the `i` below 0 or at least `size_`. -/
def Grab {F SE3 SO3 B : Type} (E : Ext F SE3 SO3 B) (L : VlslamDatasetLoader F)
    (i : Int) (o : Outputs SE3 SO3 B) :
    Except Fault (Bool × Outputs SE3 SO3 B × List Event) :=
  if i ≥ L.size_ ∨ i < 0 then .ok (false, o, [])
  else
    match L.mutable_packets i with
    | .error e => .error e
    | .ok packet_ptr =>
      let gwc := E.from_matrix3x4 packet_ptr.gwc
      let Wg : Vec3 F := (packet_ptr.wg.1, packet_ptr.wg.2, E.zero)
      let Rg := E.exp Wg
      match vectorAt L.png_files_ i .pngIndex with
      | .error e => .error e
      | .ok png_file =>
        let image := E.imread png_file
        match grabEdge E L i o.edgemap with
        | .error e => .error e
        | .ok (edgemap, evE) =>
          match grabBBox E L i o.bboxlist with
          | .error e => .error e
          | .ok (bboxlist, evB) =>
            .ok (true, ⟨image, edgemap, bboxlist, gwc, Rg⟩,
              [Event.print i, Event.packet i, Event.image png_file] ++ evE ++ evB)

/-- The seven-argument overload of `Grab`: `fullpath = png_files_[i];` and then the
six-argument call.  The result also carries the value of `fullpath` on return. -/
def GrabFullpath {F SE3 SO3 B : Type} (E : Ext F SE3 SO3 B) (L : VlslamDatasetLoader F)
    (i : Int) (o : Outputs SE3 SO3 B) (_fullpath : String) :
    Except Fault (Bool × Outputs SE3 SO3 B × String × List Event) :=
  match vectorAt L.png_files_ i .pngIndex with
  | .error e => .error e
  | .ok fullpath' =>
    match Grab E L i o with
    | .error e => .error e
    | .ok (r, o', ev) => .ok (r, o', fullpath', ev)

/-! ## `LoadMeshDatabase` -/

/-- The member `std::string::find(c)`: the position of the first occurrence, `none` for
`npos`. -/
def string_find : List Char → Char → Option Nat
  | [], _ => none
  | a :: t, c => if a = c then some 0 else (string_find t c).map (· + 1)

/-- The member `std::string::substr(pos, n)`: it throws when `pos` exceeds the size,
which `npos` always does. -/
def string_substr (s : List Char) (pos : Option Nat) (n : Nat) : Except Fault (List Char) :=
  match pos with
  | none => .error .substrOutOfRange
  | some p => if p ≤ s.length then .ok ((s.drop p).take n) else .error .substrOutOfRange

/-- The first statement of `LoadMeshDatabase`:
`CHECK_STREQ(cat_json.substr(cat_json.find('.'), 5).c_str(), ".json")`. -/
def checkCatJson (cat_json : String) : Except Fault Unit :=
  match string_substr cat_json.data (string_find cat_json.data '.') 5 with
  | .error e => .error e
  | .ok sub => if sub = ".json".data then .ok () else .error .checkStreq

/-- The function `LoadMeshDatabase(root, cat_json)`. -/
def LoadMeshDatabase {F SE3 SO3 B : Type} (E : Ext F SE3 SO3 B) (root cat_json : String) :
    Except Fault (List String) :=
  match checkCatJson cat_json with
  | .error e => .error e
  | .ok _ => .ok (E.jsonEntries root cat_json)

/-! ## A concrete instance

Integer scalars and integer rigid transforms, used to evaluate the definitions above on
explicit inputs. -/

/-- Modelled from the spec: a rigid transform (rotation + translation) standing in for
the absent class `SE3`, with integer entries: the rows of the rotation and the
translation. -/
structure IntSE3 where
  r0 : Vec3 Int
  r1 : Vec3 Int
  r2 : Vec3 Int
  t : Vec3 Int
  deriving DecidableEq

/-- The dot product of two integer triples. -/
def dot3 (a b : Vec3 Int) : Int := a.1 * b.1 + a.2.1 * b.2.1 + a.2.2 * b.2.2

/-- Modelled from the spec: `from_matrix3x4` on a row-major 3x4 buffer (rotation in the
first three columns, translation in the fourth); anything else gives the identity. -/
def IntSE3.from_matrix3x4 : List Int → IntSE3
  | [a, b, c, x, d, e, f, y, g, h, k, z] => ⟨(a, b, c), (d, e, f), (g, h, k), (x, y, z)⟩
  | _ => ⟨(1, 0, 0), (0, 1, 0), (0, 0, 1), (0, 0, 0)⟩

/-- Modelled from the spec: the product of a transform and a point, `R * X + t`. -/
def IntSE3.act (g : IntSE3) (X : Vec3 Int) : Vec3 Int :=
  (dot3 g.r0 X + g.t.1, dot3 g.r1 X + g.t.2.1, dot3 g.r2 X + g.t.2.2)

/-- Modelled from the spec: the inverse of a rigid transform, with rotation the
transpose of `R` and translation minus the transpose of `R` applied to `t`. -/
def IntSE3.inv (g : IntSE3) : IntSE3 :=
  let c0 : Vec3 Int := (g.r0.1, g.r1.1, g.r2.1)
  let c1 : Vec3 Int := (g.r0.2.1, g.r1.2.1, g.r2.2.1)
  let c2 : Vec3 Int := (g.r0.2.2, g.r1.2.2, g.r2.2.2)
  ⟨c0, c1, c2, (-(dot3 c0 g.t), -(dot3 c1 g.t), -(dot3 c2 g.t))⟩

/-- A file system for the examples: every image file decodes to the same 1x2 image with
pixels (100,100,100) and (200,200,200); the edge file `long.edge` holds a 1x1 record
with a buffer of two floats and every other edge file a 1x2 record with a buffer of two;
every bounding-box file opens.  The rotation type is the log-vector itself. -/
def intExt : Ext Int IntSE3 (Vec3 Int) (List Nat) where
  from_matrix3x4 := IntSE3.from_matrix3x4
  inv := IntSE3.inv
  act := IntSE3.act
  exp := fun w => w
  zero := 0
  toInt := fun x => x
  to8U := fun x => (min (max (x * 255) 0) 255).toNat
  imread := fun _ => ⟨1, 2, [(100, 100, 100), (200, 200, 200)]⟩
  parseEdgeMap := fun path => if path = "long.edge" then ⟨1, 1, [1, 0]⟩ else ⟨1, 2, [0, 1]⟩
  parseBBoxList := fun _ => some [7]
  edgeOverrun := fun _ edge => some (false, edge)
  jsonEntries := fun _ _ => []

/-- The image every path of `intExt` decodes to. -/
def img12 : Image := ⟨1, 2, [(100, 100, 100), (200, 200, 200)]⟩

/-- A 1x2 image whose pixels (100,100,100) and (50,60,70) have channel sums that fit in
8 bits. -/
def imgLow : Image := ⟨1, 2, [(100, 100, 100), (50, 60, 70)]⟩

/-- The pose with rotation a quarter turn about the z axis and translation (1, 2, 3),
as a row-major 3x4 buffer. -/
def gwcQuarter : List Int := [0, -1, 0, 1, 1, 0, 0, 2, 0, 0, 1, 3]

/-- A packet with two features of id 42, INSTATE at pixel (0, 0) and GOODDROP at pixel
(1, 0), one feature of id 7 with another status and one INSTATE feature of id 9. -/
def packet42 : Packet Int :=
  { gwc := gwcQuarter, wg := (0, 0),
    features :=
      [ ⟨42, .INSTATE, (1, 1, 1), (0, 0)⟩,
        ⟨7, .OTHER, (5, 5, 5), (0, 0)⟩,
        ⟨42, .GOODDROP, (2, 3, 4), (1, 0)⟩,
        ⟨9, .INSTATE, (0, 0, 10), (1, 0)⟩ ] }

/-- A loader over one image and the packet `packet42`. -/
def loader42 : VlslamDatasetLoader Int :=
  { dataset_ := [packet42], png_files_ := ["0.png"], edge_files_ := [], bbox_files_ := [] }

/-- The reference parameters before a call: empty images, an empty bounding-box list,
the identity pose and the zero rotation vector. -/
def outputs0 : Outputs IntSE3 (Vec3 Int) (List Nat) :=
  { image := ⟨0, 0, []⟩, edgemap := ⟨0, 0, []⟩, bboxlist := [],
    gwc := ⟨(1, 0, 0), (0, 1, 0), (0, 0, 1), (0, 0, 0)⟩, Rg := (0, 0, 0) }

/-- A packet with one INSTATE feature of the given id at pixel (0, 0). -/
def packetOf (id : Int) : Packet Int :=
  { gwc := gwcQuarter, wg := (3, 4), features := [⟨id, .INSTATE, (1, 1, 1), (0, 0)⟩] }

/-- The scenario of the specification: 3 image files, 1 edge file, no bounding-box file
and a log of 3 packets. -/
def scenarioLoader : VlslamDatasetLoader Int :=
  { dataset_ := [packetOf 1, packetOf 2, packetOf 3],
    png_files_ := ["0.png", "1.png", "2.png"],
    edge_files_ := ["0.edge"],
    bbox_files_ := [] }

/-- A loader whose log is shorter than its image list: 2 image files, 1 packet. -/
def shortLogLoader : VlslamDatasetLoader Int :=
  { dataset_ := [packetOf 1], png_files_ := ["0.png", "1.png"],
    edge_files_ := [], bbox_files_ := [] }

/-- A loader over two frames: landmark 1 is observed in frame 0 only, landmark 2 in
frame 1 only. -/
def twoFrameLoader : VlslamDatasetLoader Int :=
  { dataset_ := [packetOf 1, packetOf 2], png_files_ := ["0.png", "1.png"],
    edge_files_ := [], bbox_files_ := [] }

/-! ## Reference definitions, written from the specification -/

/-- The last qualifying observation of a landmark id, in packet order. -/
def lastQualifying {F : Type} (fs : List (Feature F)) (id : Int) : Option (Feature F) :=
  (fs.filter (fun f => qualifying f && decide (f.id = id))).getLast?

/-- The sparse-depth record the specification assigns to an observation: its recorded
pixel coordinate and the third component of `inverse(pose)` applied to its world
position. -/
def depthRecord {F SE3 SO3 B : Type} (E : Ext F SE3 SO3 B) (p : Packet F) (f : Feature F) :
    Vec3 F :=
  (f.xp.1, f.xp.2, (E.act (E.inv (E.from_matrix3x4 p.gwc)) f.xw).2.2)

/-- The colours sampled for a landmark id: the pixel of each of its qualifying
observations, in packet order. -/
def sampledColors {F SE3 SO3 B : Type} (E : Ext F SE3 SO3 B) (img : Image)
    (fs : List (Feature F)) (id : Int) : List Vec3b :=
  fs.filterMap (fun f =>
    if qualifying f && decide (f.id = id) then
      img.atVec3b (E.toInt f.xp.2) (E.toInt f.xp.1)
    else none)

/-- One step of the colour fold of the specification, for a given per-channel merge:
the first sample is stored as it is, a later one is merged into the stored colour. -/
def foldColor (merge : Nat → Nat → Nat) : Option Vec3b → Vec3b → Option Vec3b
  | none, sampled => some sampled
  | some old, sampled =>
    some (merge sampled.1 old.1, merge sampled.2.1 old.2.1, merge sampled.2.2 old.2.2)

/-- The per-channel update of the specification, `(old + sampled) >> 1` on integers. -/
def halvedSum (sampled stored : Nat) : Nat := (stored + sampled) >>> 1

/-! ## Lemmas on the map -/

theorem unordered_map.find_assign {V : Type} (m : unordered_map V) (k : Int) (v : V)
    (key : Int) :
    unordered_map.find (unordered_map.assign m k v) key
      = if k = key then some v else unordered_map.find m key := by
  induction m with
  | nil => simp [unordered_map.assign, unordered_map.find]
  | cons hd t ih =>
    obtain ⟨a, w⟩ := hd
    by_cases h : a = k
    · subst h
      by_cases h2 : a = key <;> simp [unordered_map.assign, unordered_map.find, h2]
    · by_cases h2 : a = key
      · subst h2
        have h3 : ¬ k = a := fun e => h e.symm
        simp [unordered_map.assign, unordered_map.find, h, h3]
      · simp [unordered_map.assign, unordered_map.find, h, h2, ih]

theorem unordered_map.mem_keys_iff {V : Type} (m : unordered_map V) (key : Int) :
    key ∈ unordered_map.keys m ↔ (unordered_map.find m key).isSome = true := by
  induction m with
  | nil => simp [unordered_map.keys, unordered_map.find]
  | cons hd t ih =>
    obtain ⟨a, w⟩ := hd
    by_cases h : a = key
    · simp [unordered_map.keys, unordered_map.find, h]
    · have h2 : ¬ key = a := fun e => h e.symm
      simpa [unordered_map.keys, unordered_map.find, h, h2] using ih

theorem unordered_map.keys_assign_of_mem {V : Type} (m : unordered_map V) (k : Int) (v : V)
    (h : k ∈ unordered_map.keys m) :
    unordered_map.keys (unordered_map.assign m k v) = unordered_map.keys m := by
  induction m with
  | nil => simp [unordered_map.keys] at h
  | cons hd t ih =>
    obtain ⟨a, w⟩ := hd
    by_cases h1 : a = k
    · simp [unordered_map.assign, unordered_map.keys, h1]
    · have h2 : k ∈ unordered_map.keys t := by
        have h3 : ¬ k = a := fun e => h1 e.symm
        simpa [unordered_map.keys, h3] using h
      have := ih h2
      simp only [unordered_map.keys] at this
      simp [unordered_map.assign, unordered_map.keys, h1, this]

theorem unordered_map.keys_assign_of_not_mem {V : Type} (m : unordered_map V) (k : Int)
    (v : V) (h : k ∉ unordered_map.keys m) :
    unordered_map.keys (unordered_map.assign m k v) = unordered_map.keys m ++ [k] := by
  induction m with
  | nil => simp [unordered_map.assign, unordered_map.keys]
  | cons hd t ih =>
    obtain ⟨a, w⟩ := hd
    have h1 : ¬ a = k := by
      intro e
      apply h
      simp [unordered_map.keys, e]
    have h2 : k ∉ unordered_map.keys t := by
      intro e
      apply h
      simp only [unordered_map.keys] at e
      simp [unordered_map.keys, e]
    have := ih h2
    simp only [unordered_map.keys] at this
    simp [unordered_map.assign, unordered_map.keys, h1, this]

theorem unordered_map.keys_nodup_assign {V : Type} (m : unordered_map V) (k : Int) (v : V)
    (h : (unordered_map.keys m).Nodup) :
    (unordered_map.keys (unordered_map.assign m k v)).Nodup := by
  by_cases hk : k ∈ unordered_map.keys m
  · rw [unordered_map.keys_assign_of_mem m k v hk]
    exact h
  · rw [unordered_map.keys_assign_of_not_mem m k v hk]
    exact List.Nodup.append h (List.nodup_singleton k) (by simpa using hk)

theorem lastQualifying_cons {F : Type} (f : Feature F) (fs : List (Feature F)) (id : Int) :
    lastQualifying (f :: fs) id
      = (lastQualifying fs id).or
          (if qualifying f = true ∧ f.id = id then some f else none) := by
  unfold lastQualifying
  by_cases h : qualifying f = true ∧ f.id = id
  · have h2 : (qualifying f && decide (f.id = id)) = true := by simp [h.1, h.2]
    simp only [List.filter_cons, h2, if_true]
    rw [List.getLast?_cons, if_pos h]
    cases (List.filter (fun f => qualifying f && decide (f.id = id)) fs).getLast? <;> rfl
  · have h2 : ¬ (qualifying f && decide (f.id = id)) = true := by simpa using h
    have h3 : (qualifying f && decide (f.id = id)) = false := by simpa using h2
    simp only [List.filter_cons, h3, Bool.false_eq_true, if_false]
    rw [if_neg h]
    cases (List.filter (fun f => qualifying f && decide (f.id = id)) fs).getLast? <;> rfl

theorem lastQualifying_isSome_iff {F : Type} (fs : List (Feature F)) (id : Int) :
    (lastQualifying fs id).isSome = true ↔ ∃ f ∈ fs, qualifying f = true ∧ f.id = id := by
  induction fs with
  | nil => simp [lastQualifying]
  | cons f fs ih =>
    rw [lastQualifying_cons]
    by_cases h : qualifying f = true ∧ f.id = id
    · have : ∃ g ∈ f :: fs, qualifying g = true ∧ g.id = id := ⟨f, by simp, h⟩
      cases hl : lastQualifying fs id <;> simp [Option.or, h, this]
    · cases hl : lastQualifying fs id
      · have hn : ¬ ∃ g ∈ fs, qualifying g = true ∧ g.id = id := by
          rw [← ih, hl]; simp
        simp only [Option.or, if_neg h, Option.isSome_none, Bool.false_eq_true, false_iff]
        rintro ⟨g, hg, hq⟩
        rcases List.mem_cons.1 hg with e | e
        · exact h (e ▸ hq)
        · exact hn ⟨g, e, hq⟩
      · have hy : ∃ g ∈ fs, qualifying g = true ∧ g.id = id := by
          rw [← ih, hl]; simp
        obtain ⟨g, hg, hq⟩ := hy
        simp only [Option.or, Option.isSome_some, true_iff]
        exact ⟨g, List.mem_cons_of_mem _ hg, hq⟩

theorem qualifying_iff {F : Type} (f : Feature F) :
    qualifying f = true
      ↔ f.status = Feature_Status.INSTATE ∨ f.status = Feature_Status.GOODDROP := by
  cases hs : f.status <;> simp [qualifying, hs]

/-! ## Lemmas on `GrabPointCloud` -/

theorem pointCloudStep_of_not_qualifying {F SE3 SO3 B : Type} (E : Ext F SE3 SO3 B)
    (img : Image) (out : unordered_map (PointColor F)) (f : Feature F)
    (hq : ¬ qualifying f = true) : pointCloudStep E img out f = .ok out := by
  simp [pointCloudStep, hq]

theorem pointCloudStep_of_qualifying {F SE3 SO3 B : Type} (E : Ext F SE3 SO3 B)
    (img : Image) (out : unordered_map (PointColor F)) (f : Feature F)
    (hq : qualifying f = true)
    (hin : (img.atVec3b (E.toInt f.xp.2) (E.toInt f.xp.1)).isSome = true) :
    ∃ c, pointCloudStep E img out f = .ok (unordered_map.assign out f.id ⟨f.xw, c⟩) := by
  obtain ⟨color, hc⟩ := Option.isSome_iff_exists.1 hin
  cases hf : unordered_map.find out f.id with
  | none =>
    exact ⟨color, by simp [pointCloudStep, hq, hc, unordered_map.count, hf]⟩
  | some old =>
    exact ⟨_, by simp [pointCloudStep, hq, hc, unordered_map.count, hf]; rfl⟩

theorem pointCloudLoop_append {F SE3 SO3 B : Type} (E : Ext F SE3 SO3 B) (img : Image)
    (pre post : List (Feature F)) (out : unordered_map (PointColor F)) :
    pointCloudLoop E img (pre ++ post) out
      = match pointCloudLoop E img pre out with
        | .error e => .error e
        | .ok mid => pointCloudLoop E img post mid := by
  induction pre generalizing out with
  | nil => simp [pointCloudLoop]
  | cons f fs ih =>
    simp only [List.cons_append, pointCloudLoop]
    cases pointCloudStep E img out f with
    | error e => rfl
    | ok out1 => exact ih out1

theorem pointCloudLoop_ok {F SE3 SO3 B : Type} (E : Ext F SE3 SO3 B) (img : Image)
    (fs : List (Feature F)) (out : unordered_map (PointColor F))
    (hin : ∀ f ∈ fs, qualifying f = true →
      (img.atVec3b (E.toInt f.xp.2) (E.toInt f.xp.1)).isSome = true) :
    ∃ m, pointCloudLoop E img fs out = .ok m
      ∧ (∀ id, (unordered_map.find m id).map (fun r => r.xw)
            = ((lastQualifying fs id).map (fun f => f.xw)).or
                ((unordered_map.find out id).map (fun r => r.xw)))
      ∧ (∀ id, id ∈ unordered_map.keys out → id ∈ unordered_map.keys m)
      ∧ ((unordered_map.keys out).Nodup → (unordered_map.keys m).Nodup) := by
  induction fs generalizing out with
  | nil =>
    refine ⟨out, rfl, ?_, fun _ h => h, fun h => h⟩
    intro id
    simp [lastQualifying]
  | cons f fs ih =>
    have hin2 : ∀ g ∈ fs, qualifying g = true →
        (img.atVec3b (E.toInt g.xp.2) (E.toInt g.xp.1)).isSome = true :=
      fun g hg => hin g (List.mem_cons_of_mem _ hg)
    by_cases hq : qualifying f = true
    · obtain ⟨c, hc⟩ := pointCloudStep_of_qualifying E img out f hq (hin f (by simp) hq)
      obtain ⟨m, hm, hx, hk, hn⟩ := ih (unordered_map.assign out f.id ⟨f.xw, c⟩) hin2
      refine ⟨m, by simp [pointCloudLoop, hc, hm], ?_, ?_, ?_⟩
      · intro id
        rw [hx id, lastQualifying_cons, unordered_map.find_assign]
        by_cases hid : f.id = id
        · cases lastQualifying fs id <;> simp [hq, hid]
        · cases lastQualifying fs id <;> simp [hid]
      · intro id hid
        apply hk
        rw [unordered_map.mem_keys_iff] at hid ⊢
        rw [unordered_map.find_assign]
        by_cases e : f.id = id
        · simp [e]
        · simpa [e] using hid
      · intro h
        exact hn (unordered_map.keys_nodup_assign out f.id _ h)
    · obtain ⟨m, hm, hx, hk, hn⟩ := ih out hin2
      refine ⟨m, ?_, ?_, hk, hn⟩
      · simp [pointCloudLoop, pointCloudStep_of_not_qualifying E img out f hq, hm]
      · intro id
        rw [hx id, lastQualifying_cons]
        cases lastQualifying fs id <;> simp [hq]

theorem pointCloudStep_color {F SE3 SO3 B : Type} (E : Ext F SE3 SO3 B)
    (img : Image) (out : unordered_map (PointColor F)) (f : Feature F) (color : Vec3b)
    (hq : qualifying f = true)
    (hc : img.atVec3b (E.toInt f.xp.2) (E.toInt f.xp.1) = some color) :
    ∃ c, pointCloudStep E img out f = .ok (unordered_map.assign out f.id ⟨f.xw, c⟩)
      ∧ foldColor mergeChannel ((unordered_map.find out f.id).map (fun r => r.color)) color
          = some c := by
  cases hf : unordered_map.find out f.id with
  | none =>
    exact ⟨color, by simp [pointCloudStep, hq, hc, unordered_map.count, hf], rfl⟩
  | some old =>
    exact ⟨(mergeChannel color.1 old.color.1, mergeChannel color.2.1 old.color.2.1,
        mergeChannel color.2.2 old.color.2.2),
      by simp [pointCloudStep, hq, hc, unordered_map.count, hf], rfl⟩

/-- What `GrabPointCloud` stores as colour: the fold of the sampled colours of an id in
packet order, the first stored as it is and each later one merged by `mergeChannel`. -/
theorem pointCloudLoop_color {F SE3 SO3 B : Type} (E : Ext F SE3 SO3 B) (img : Image)
    (fs : List (Feature F)) (out m : unordered_map (PointColor F))
    (h : pointCloudLoop E img fs out = .ok m) (id : Int) :
    (unordered_map.find m id).map (fun r => r.color)
      = (sampledColors E img fs id).foldl (foldColor mergeChannel)
          ((unordered_map.find out id).map (fun r => r.color)) := by
  induction fs generalizing out with
  | nil =>
    simp only [pointCloudLoop, Except.ok.injEq] at h
    subst h
    simp [sampledColors]
  | cons f fs ih =>
    simp only [pointCloudLoop] at h
    by_cases hq : qualifying f = true
    · cases hc : img.atVec3b (E.toInt f.xp.2) (E.toInt f.xp.1) with
      | none =>
        simp [pointCloudStep, hq, hc] at h
      | some color =>
        obtain ⟨c, hs, hfold⟩ := pointCloudStep_color E img out f color hq hc
        rw [hs] at h
        rw [ih _ h, unordered_map.find_assign]
        by_cases hid : f.id = id
        · subst hid
          simp [sampledColors, hq, hc, hfold]
        · simp [sampledColors, hid]
    · rw [pointCloudStep_of_not_qualifying E img out f hq] at h
      rw [ih _ h]
      simp [sampledColors, hq]

/-! ## Lemmas on `GrabSparseDepth` -/

theorem sparseDepthStep_eq {F SE3 SO3 B : Type} (E : Ext F SE3 SO3 B) (gcw : SE3)
    (out : unordered_map (Vec3 F)) (f : Feature F) :
    sparseDepthStep E gcw out f
      = if qualifying f = true then
          unordered_map.assign out f.id (f.xp.1, f.xp.2, (E.act gcw f.xw).2.2)
        else out := by
  unfold sparseDepthStep
  by_cases hq : qualifying f = true
  · by_cases hc : unordered_map.count out f.id ≠ 0 <;> simp [hq, hc]
  · simp [hq]

theorem sparseDepth_foldl {F SE3 SO3 B : Type} (E : Ext F SE3 SO3 B) (gcw : SE3)
    (fs : List (Feature F)) (out : unordered_map (Vec3 F)) (id : Int) :
    unordered_map.find (fs.foldl (sparseDepthStep E gcw) out) id
      = ((lastQualifying fs id).map
            (fun f => (f.xp.1, f.xp.2, (E.act gcw f.xw).2.2))).or
          (unordered_map.find out id) := by
  induction fs generalizing out with
  | nil => simp [lastQualifying]
  | cons f fs ih =>
    rw [List.foldl_cons, ih, lastQualifying_cons, sparseDepthStep_eq]
    by_cases hq : qualifying f = true
    · by_cases hid : f.id = id
      · cases lastQualifying fs id <;> simp [hq, hid, unordered_map.find_assign]
      · cases lastQualifying fs id <;> simp [hq, hid, unordered_map.find_assign]
    · cases lastQualifying fs id <;> simp [hq]

theorem mutable_packets_ok_iff {F : Type} (L : VlslamDatasetLoader F) (i : Int) :
    (∃ p, L.mutable_packets i = .ok p) ↔ (0 ≤ i ∧ i < L.dataset_.length) := by
  unfold VlslamDatasetLoader.mutable_packets
  by_cases h0 : 0 ≤ i
  · by_cases h1 : i.toNat < L.dataset_.length
    · have : i < L.dataset_.length := by omega
      simp [h0, List.getElem?_eq_getElem h1, this]
    · have : ¬ i < L.dataset_.length := by omega
      simp [h0, List.getElem?_eq_none (Nat.le_of_not_lt h1), this]
  · simp [h0]

theorem mutable_packets_error {F : Type} (L : VlslamDatasetLoader F) (i : Int) (e : Fault)
    (h : L.mutable_packets i = .error e) :
    e = .packetIndex ∧ ¬ (0 ≤ i ∧ i < L.dataset_.length) := by
  constructor
  · unfold VlslamDatasetLoader.mutable_packets at h
    split at h
    · split at h
      · cases h
      · cases h; rfl
    · cases h; rfl
  · intro hr
    obtain ⟨p, hp⟩ := (mutable_packets_ok_iff L i).2 hr
    rw [hp] at h
    cases h

theorem pointCloudStep_error {F SE3 SO3 B : Type} (E : Ext F SE3 SO3 B) (img : Image)
    (out : unordered_map (PointColor F)) (f : Feature F) (e : Fault)
    (h : pointCloudStep E img out f = .error e) : e = .imageIndex := by
  unfold pointCloudStep at h
  split at h
  · split at h
    · cases h; rfl
    · split at h
      · rename_i hc
        split at h
        · rename_i hf
          simp [unordered_map.count, hf] at hc
        · cases h
      · cases h
  · cases h

theorem pointCloudLoop_error {F SE3 SO3 B : Type} (E : Ext F SE3 SO3 B) (img : Image)
    (fs : List (Feature F)) (out : unordered_map (PointColor F)) (e : Fault)
    (h : pointCloudLoop E img fs out = .error e) : e = .imageIndex := by
  induction fs generalizing out with
  | nil => simp [pointCloudLoop] at h
  | cons f fs ih =>
    simp only [pointCloudLoop] at h
    cases hs : pointCloudStep E img out f with
    | error e1 =>
      rw [hs] at h
      cases h
      exact pointCloudStep_error E img out f _ hs
    | ok out1 =>
      rw [hs] at h
      exact ih out1 h

theorem mergeChannel_lt {sampled stored : Nat} : mergeChannel sampled stored < 128 := by
  unfold mergeChannel toUchar
  rw [Nat.shiftRight_eq_div_pow]
  omega

theorem mergeChannel_of_le {sampled stored : Nat} (h : sampled + stored ≤ 255) :
    mergeChannel sampled stored = halvedSum sampled stored := by
  unfold mergeChannel toUchar halvedSum
  have : (sampled + stored) % 2 ^ 8 = sampled + stored := Nat.mod_eq_of_lt (by omega)
  rw [this, Nat.add_comm]

theorem vectorAt_ok {α : Type} (v : List α) (i : Int) (e : Fault) (h0 : 0 ≤ i)
    (h1 : i < v.length) : ∃ x, vectorAt v i e = .ok x ∧ v[i.toNat]? = some x := by
  have h2 : i.toNat < v.length := by omega
  exact ⟨v[i.toNat], by simp [vectorAt, h0, List.getElem?_eq_getElem h2],
    List.getElem?_eq_getElem h2⟩

theorem vectorAt_error {α : Type} (v : List α) (i : Int) (e e1 : Fault)
    (h : vectorAt v i e = .error e1) : e1 = e := by
  unfold vectorAt at h
  split at h
  · split at h
    · cases h
    · cases h; rfl
  · cases h; rfl

theorem LoadEdgeMap_error {F SE3 SO3 B : Type} (E : Ext F SE3 SO3 B) (filename : String)
    (edge : Mat8) (e : Fault) (h : LoadEdgeMap E filename edge = .error e) :
    e = .edgeBuffer := by
  unfold LoadEdgeMap at h
  simp only at h
  split at h
  · cases h
  · split at h
    · cases h
    · cases h; rfl

theorem grabEdge_error {F SE3 SO3 B : Type} (E : Ext F SE3 SO3 B)
    (L : VlslamDatasetLoader F) (i : Int) (edgemap : Mat8) (e : Fault)
    (h : grabEdge E L i edgemap = .error e) : e ≠ .packetIndex := by
  unfold grabEdge at h
  split at h
  · split at h
    · rename_i e1 hv
      cases h
      rw [vectorAt_error _ _ _ _ hv]
      decide
    · split at h
      · rename_i e1 hl
        cases h
        rw [LoadEdgeMap_error E _ _ _ hl]
        decide
      · split at h
        · cases h; decide
        · cases h
  · cases h

theorem grabBBox_error {F SE3 SO3 B : Type} (E : Ext F SE3 SO3 B)
    (L : VlslamDatasetLoader F) (i : Int) (bboxlist : B) (e : Fault)
    (h : grabBBox E L i bboxlist = .error e) : e ≠ .packetIndex := by
  unfold grabBBox at h
  split at h
  · split at h
    · rename_i e1 hv
      cases h
      rw [vectorAt_error _ _ _ _ hv]
      decide
    · split at h
      · cases h; decide
      · cases h
  · cases h

theorem Grab_packet_error_iff {F SE3 SO3 B : Type} (E : Ext F SE3 SO3 B)
    (L : VlslamDatasetLoader F) (i : Int) (o : Outputs SE3 SO3 B) :
    Grab E L i o = .error .packetIndex
      ↔ (0 ≤ i ∧ i < L.size_ ∧ (L.dataset_.length : Int) ≤ i) := by
  unfold Grab
  by_cases hg : i ≥ L.size_ ∨ i < 0
  · rw [if_pos hg]
    constructor
    · intro h; cases h
    · rintro ⟨h0, h1, _⟩
      rcases hg with hg | hg <;> omega
  · rw [if_neg hg]
    have h0 : 0 ≤ i := by omega
    have h1 : i < L.size_ := by omega
    cases hp : L.mutable_packets i with
    | error e =>
      obtain ⟨he, hr⟩ := mutable_packets_error L i e hp
      subst he
      simp only [true_iff]
      exact ⟨h0, h1, by omega⟩
    | ok packet_ptr =>
      have hr : 0 ≤ i ∧ i < L.dataset_.length :=
        (mutable_packets_ok_iff L i).1 ⟨packet_ptr, hp⟩
      have hno : ¬ (0 ≤ i ∧ i < L.size_ ∧ (L.dataset_.length : Int) ≤ i) := by omega
      simp only [hno, iff_false]
      obtain ⟨png, hpng, _⟩ := vectorAt_ok L.png_files_ i .pngIndex h0 h1
      rw [hpng]
      simp only
      cases he : grabEdge E L i o.edgemap with
      | error e =>
        simp only
        intro h
        cases h
        exact grabEdge_error E L i _ _ he rfl
      | ok r =>
        obtain ⟨em, ev⟩ := r
        simp only
        cases hb : grabBBox E L i o.bboxlist with
        | error e =>
          simp only
          intro h
          cases h
          exact grabBBox_error E L i _ _ hb rfl
        | ok r2 =>
          obtain ⟨bb, ev2⟩ := r2
          simp

theorem GrabPointCloud_packet_error_iff {F SE3 SO3 B : Type} (E : Ext F SE3 SO3 B)
    (L : VlslamDatasetLoader F) (i : Int) (img : Image) :
    GrabPointCloud E L i img = .error .packetIndex
      ↔ ¬ (0 ≤ i ∧ i < L.dataset_.length) := by
  unfold GrabPointCloud
  cases hp : L.mutable_packets i with
  | error e =>
    obtain ⟨he, hr⟩ := mutable_packets_error L i e hp
    subst he
    simp [hr]
  | ok packet =>
    have hr : 0 ≤ i ∧ i < L.dataset_.length := (mutable_packets_ok_iff L i).1 ⟨packet, hp⟩
    simp only [hr, and_self, not_true_eq_false, iff_false]
    intro h
    have := pointCloudLoop_error E img _ _ _ h
    cases this

theorem GrabSparseDepth_packet_error_iff {F SE3 SO3 B : Type} (E : Ext F SE3 SO3 B)
    (L : VlslamDatasetLoader F) (i : Int) :
    GrabSparseDepth E L i = .error .packetIndex
      ↔ ¬ (0 ≤ i ∧ i < L.dataset_.length) := by
  unfold GrabSparseDepth
  cases hp : L.mutable_packets i with
  | error e =>
    obtain ⟨he, hr⟩ := mutable_packets_error L i e hp
    subst he
    simp [hr]
  | ok packet =>
    have hr : 0 ≤ i ∧ i < L.dataset_.length := (mutable_packets_ok_iff L i).1 ⟨packet, hp⟩
    simp [hr]

theorem string_find_append {c : Char} (pre rest : List Char) (h : c ∉ pre) :
    string_find (pre ++ c :: rest) c = some pre.length := by
  induction pre with
  | nil => simp [string_find]
  | cons a t ih =>
    have h1 : ¬ a = c := fun e => h (by simp [e])
    have h2 : c ∉ t := fun e => h (List.mem_cons_of_mem _ e)
    simp [string_find, h1, ih h2]

theorem string_find_some {c : Char} (l : List Char) (p : Nat)
    (h : string_find l c = some p) :
    ∃ pre rest, c ∉ pre ∧ l = pre ++ c :: rest ∧ pre.length = p := by
  induction l generalizing p with
  | nil => simp [string_find] at h
  | cons a t ih =>
    by_cases h1 : a = c
    · subst h1
      simp only [string_find, if_true, Option.some.injEq] at h
      exact ⟨[], t, by simp, by simp, by simpa using h⟩
    · simp only [string_find, if_neg h1, Option.map_eq_some'] at h
      obtain ⟨q, hq, hp⟩ := h
      obtain ⟨pre, rest, hn, hl, hlen⟩ := ih q hq
      refine ⟨a :: pre, rest, ?_, by simp [hl], by simp [hlen, hp]⟩
      intro hm
      rcases List.mem_cons.1 hm with e | e
      · exact h1 e.symm
      · exact hn e

/-- What the name check of `LoadMeshDatabase` decides: it passes exactly for the names
in which the first '.' is followed by `json`, whatever comes after. -/
theorem checkCatJson_ok_iff (cat_json : String) :
    checkCatJson cat_json = .ok ()
      ↔ ∃ pre rest, '.' ∉ pre ∧ cat_json.data = pre ++ ".json".data ++ rest := by
  have hj : ".json".data = ['.', 'j', 's', 'o', 'n'] := rfl
  constructor
  · intro h
    unfold checkCatJson string_substr at h
    cases hf : string_find cat_json.data '.' with
    | none => rw [hf] at h; cases h
    | some p =>
      rw [hf] at h
      obtain ⟨pre, rest, hn, hl, hlen⟩ := string_find_some _ _ hf
      have hp : p ≤ cat_json.data.length := by rw [hl, ← hlen]; simp
      simp only [hp, if_true] at h
      split at h
      · rename_i heq
        refine ⟨pre, List.drop 5 ('.' :: rest), hn, ?_⟩
        have hd : List.drop p cat_json.data = '.' :: rest := by
          rw [hl, ← hlen]; simp
        rw [hd] at heq
        rw [hj, ← heq, List.append_assoc, List.take_append_drop, hl]
      · cases h
  · rintro ⟨pre, rest, hn, hl⟩
    have hl2 : cat_json.data = pre ++ '.' :: ('j' :: 's' :: 'o' :: 'n' :: rest) := by
      rw [hl, hj]; simp
    have hf := string_find_append pre ('j' :: 's' :: 'o' :: 'n' :: rest) hn
    rw [← hl2] at hf
    have hp : pre.length ≤ cat_json.data.length := by rw [hl2]; simp
    have hd : List.drop pre.length cat_json.data
        = '.' :: 'j' :: 's' :: 'o' :: 'n' :: rest := by
      rw [hl2]; simp
    have hp2 : pre.length ≤ cat_json.length := hp
    simp [checkCatJson, string_substr, hf, hp2, hd, hj]

/-- For every ordinal outside the image list, the path-returning overload reaches the
access `png_files_[i]` outside the vector. -/
theorem GrabFullpath_fault_of_out_of_range {F SE3 SO3 B : Type} (E : Ext F SE3 SO3 B)
    (L : VlslamDatasetLoader F) (i : Int) (o : Outputs SE3 SO3 B) (fullpath : String)
    (h : i < 0 ∨ i ≥ L.size_) : GrabFullpath E L i o fullpath = .error .pngIndex := by
  unfold GrabFullpath vectorAt
  by_cases h0 : 0 ≤ i
  · have h1 : L.png_files_.length ≤ i.toNat := by
      unfold VlslamDatasetLoader.size_ at h
      omega
    simp [h0, List.getElem?_eq_none h1]
  · simp [h0]

theorem pointCloudLoop_from_empty {F SE3 SO3 B : Type} (E : Ext F SE3 SO3 B)
    (img : Image) (fs : List (Feature F))
    (hin : ∀ f ∈ fs, qualifying f = true →
      (img.atVec3b (E.toInt f.xp.2) (E.toInt f.xp.1)).isSome = true) :
    ∃ m, pointCloudLoop E img fs [] = .ok m
      ∧ (∀ id, id ∈ unordered_map.keys m
            ↔ ∃ f ∈ fs, qualifying f = true ∧ f.id = id)
      ∧ (∀ id, (unordered_map.find m id).map (fun r => r.xw)
            = (lastQualifying fs id).map (fun f => f.xw))
      ∧ (unordered_map.keys m).Nodup := by
  obtain ⟨m, hm, hx, _, hn⟩ := pointCloudLoop_ok E img fs [] hin
  have hx2 : ∀ id, (unordered_map.find m id).map (fun r => r.xw)
      = (lastQualifying fs id).map (fun f => f.xw) := by
    intro id
    rw [hx id]
    simp [unordered_map.find]
  refine ⟨m, hm, ?_, hx2, hn (by simp [unordered_map.keys])⟩
  intro id
  rw [unordered_map.mem_keys_iff]
  have e1 : (unordered_map.find m id).isSome
      = ((unordered_map.find m id).map (fun r => r.xw)).isSome := by simp
  rw [e1, hx2 id, Option.isSome_map', lastQualifying_isSome_iff]

/-- The effect of one qualifying observation on the map: the records of the other ids are
untouched; an id not yet present gets a new record with the sampled colour as it is; an
id already present keeps its place, its position is overwritten and, on a channel whose
sum fits in 8 bits, its colour becomes the halved sum. -/
theorem pointCloudStep_effect {F SE3 SO3 B : Type} (E : Ext F SE3 SO3 B)
    (img : Image) (out : unordered_map (PointColor F)) (f : Feature F) (c : Vec3b)
    (hq : qualifying f = true)
    (hc : img.atVec3b (E.toInt f.xp.2) (E.toInt f.xp.1) = some c) :
    ∃ out1, pointCloudStep E img out f = .ok out1
      ∧ (∀ id, id ≠ f.id → unordered_map.find out1 id = unordered_map.find out id)
      ∧ (f.id ∉ unordered_map.keys out →
            unordered_map.keys out1 = unordered_map.keys out ++ [f.id]
              ∧ unordered_map.find out1 f.id = some ⟨f.xw, c⟩)
      ∧ (∀ old, unordered_map.find out f.id = some old →
            unordered_map.keys out1 = unordered_map.keys out
              ∧ ∃ r, unordered_map.find out1 f.id = some r ∧ r.xw = f.xw
                  ∧ (c.1 + old.color.1 ≤ 255 → r.color.1 = halvedSum c.1 old.color.1)
                  ∧ (c.2.1 + old.color.2.1 ≤ 255
                      → r.color.2.1 = halvedSum c.2.1 old.color.2.1)
                  ∧ (c.2.2 + old.color.2.2 ≤ 255
                      → r.color.2.2 = halvedSum c.2.2 old.color.2.2)) := by
  obtain ⟨c1, hs, hfold⟩ := pointCloudStep_color E img out f c hq hc
  refine ⟨_, hs, ?_, ?_, ?_⟩
  · intro id hid
    rw [unordered_map.find_assign]
    have : ¬ f.id = id := fun e => hid e.symm
    simp [this]
  · intro hnot
    have hnone : unordered_map.find out f.id = none := by
      cases hf : unordered_map.find out f.id with
      | none => rfl
      | some v =>
        exact absurd ((unordered_map.mem_keys_iff out f.id).2 (by simp [hf])) hnot
    rw [hnone] at hfold
    simp only [Option.map_none', foldColor, Option.some.injEq] at hfold
    subst hfold
    exact ⟨unordered_map.keys_assign_of_not_mem out f.id _ hnot,
      by simp [unordered_map.find_assign]⟩
  · intro old hold
    have hmem : f.id ∈ unordered_map.keys out :=
      (unordered_map.mem_keys_iff out f.id).2 (by simp [hold])
    rw [hold] at hfold
    simp only [Option.map_some', foldColor, Option.some.injEq] at hfold
    subst hfold
    refine ⟨unordered_map.keys_assign_of_mem out f.id _ hmem,
      ⟨f.xw, (mergeChannel c.1 old.color.1, mergeChannel c.2.1 old.color.2.1,
        mergeChannel c.2.2 old.color.2.2)⟩,
      by simp [unordered_map.find_assign], rfl, ?_, ?_, ?_⟩
    · intro h; exact mergeChannel_of_le h
    · intro h; exact mergeChannel_of_le h
    · intro h; exact mergeChannel_of_le h

/-! ## The claims -/

/-- C1, evaluated on the code: a packet whose two qualifying observations of landmark 42
sample the colours (100,100,100) and then (200,200,200).  The sum 300 of each channel is
stored back into an `unsigned char` before the shift, so the colour recorded for 42 is
(22,22,22) and not (150,150,150). -/
theorem GrabPointCloud_color_42 :
    sampledColors intExt img12 packet42.features 42 = [(100, 100, 100), (200, 200, 200)]
      ∧ (sampledColors intExt img12 packet42.features 42).foldl (foldColor halvedSum) none
          = some (150, 150, 150)
      ∧ (GrabPointCloud intExt loader42 0 img12).map
            (fun m => (unordered_map.find m 42).map (fun r => r.color))
          = .ok (some (22, 22, 22)) :=
  ⟨rfl, rfl, rfl⟩

/-- C2: for every frame ordinal below 0 or at least `size_`, the six-argument `Grab`
returns false, leaves every reference parameter as passed in, and touches neither the
packet log nor any file. -/
theorem Grab_out_of_range {F SE3 SO3 B : Type} (E : Ext F SE3 SO3 B)
    (L : VlslamDatasetLoader F) (i : Int) (o : Outputs SE3 SO3 B)
    (h : i < 0 ∨ i ≥ L.size_) : Grab E L i o = .ok (false, o, []) := by
  have h2 : i ≥ L.size_ ∨ i < 0 := h.symm
  simp [Grab, h2]

theorem Grab_out_of_range_witness :
    ((3 : Int) < 0 ∨ (3 : Int) ≥ scenarioLoader.size_)
      ∧ Grab intExt scenarioLoader 3 outputs0 = .ok (false, outputs0, []) :=
  ⟨by decide, Grab_out_of_range intExt scenarioLoader 3 outputs0 (by decide)⟩

/-- C3, evaluated on the code: on a loader with one image path, the path-returning
overload called with ordinal 1 indexes `png_files_` past its end before any bounds
check, while the six-argument `Grab` returns false with nothing touched. -/
theorem GrabFullpath_out_of_range :
    GrabFullpath intExt loader42 1 outputs0 "unchanged" = .error .pngIndex
      ∧ GrabFullpath intExt loader42 (-1) outputs0 "unchanged" = .error .pngIndex
      ∧ Grab intExt loader42 1 outputs0 = .ok (false, outputs0, []) :=
  ⟨rfl, rfl, rfl⟩

/-- C4, as stated, fails: in the scenario (3 images, 1 edge file, no bounding-box file,
3 packets) `Grab(1)` succeeds but reads no edge file and leaves the edge-map parameter
as passed in, which is not the decoded edge map. -/
theorem Grab_scenario_frame1_no_edge :
    Grab intExt scenarioLoader 1 outputs0
        = .ok (true,
            ⟨img12, outputs0.edgemap, outputs0.bboxlist,
              IntSE3.from_matrix3x4 gwcQuarter, (3, 4, 0)⟩,
            [Event.print 1, Event.packet 1, Event.image "1.png"])
      ∧ outputs0.edgemap ≠ edgeToMat8 intExt (intExt.parseEdgeMap "0.edge") :=
  ⟨rfl, by decide⟩

/-- C4, amended: over 3 image paths, 1 edge-map path, no bounding-box path and 3 packets,
with an edge record whose buffer has `rows * cols` floats, `Grab(0)` succeeds with the
decoded edge map, `Grab(1)` and `Grab(2)` succeed with the edge-map and bounding-box
parameters left as passed in and no edge or bounding-box file read, and `Grab(3)`
returns false with nothing touched. -/
theorem Grab_scenario {F SE3 SO3 B : Type} (E : Ext F SE3 SO3 B)
    (L : VlslamDatasetLoader F) (pk0 pk1 pk2 : Packet F) (p0 p1 p2 e0 : String)
    (o : Outputs SE3 SO3 B)
    (hds : L.dataset_ = [pk0, pk1, pk2]) (hpng : L.png_files_ = [p0, p1, p2])
    (hedge : L.edge_files_ = [e0]) (hbbox : L.bbox_files_ = [])
    (hrec : (E.parseEdgeMap e0).rows * (E.parseEdgeMap e0).cols
              = (E.parseEdgeMap e0).data.length) :
    Grab E L 0 o
        = .ok (true,
            ⟨E.imread p0, edgeToMat8 E (E.parseEdgeMap e0), o.bboxlist,
              E.from_matrix3x4 pk0.gwc, E.exp (pk0.wg.1, pk0.wg.2, E.zero)⟩,
            [Event.print 0, Event.packet 0, Event.image p0, Event.edge e0])
      ∧ Grab E L 1 o
        = .ok (true,
            ⟨E.imread p1, o.edgemap, o.bboxlist,
              E.from_matrix3x4 pk1.gwc, E.exp (pk1.wg.1, pk1.wg.2, E.zero)⟩,
            [Event.print 1, Event.packet 1, Event.image p1])
      ∧ Grab E L 2 o
        = .ok (true,
            ⟨E.imread p2, o.edgemap, o.bboxlist,
              E.from_matrix3x4 pk2.gwc, E.exp (pk2.wg.1, pk2.wg.2, E.zero)⟩,
            [Event.print 2, Event.packet 2, Event.image p2])
      ∧ Grab E L 3 o = .ok (false, o, []) := by
  have hle : (E.parseEdgeMap e0).rows * (E.parseEdgeMap e0).cols
      ≤ (E.parseEdgeMap e0).data.length := le_of_eq hrec
  refine ⟨?_, ?_, ?_, ?_⟩
  · simp [Grab, VlslamDatasetLoader.size_, VlslamDatasetLoader.mutable_packets, vectorAt,
      grabEdge, grabBBox, LoadEdgeMap, hds, hpng, hedge, hbbox, hle]
  · simp [Grab, VlslamDatasetLoader.size_, VlslamDatasetLoader.mutable_packets, vectorAt,
      grabEdge, grabBBox, hds, hpng, hedge, hbbox]
  · simp [Grab, VlslamDatasetLoader.size_, VlslamDatasetLoader.mutable_packets, vectorAt,
      grabEdge, grabBBox, hds, hpng, hedge, hbbox]
  · simp [Grab, VlslamDatasetLoader.size_, hpng]

theorem Grab_scenario_witness :
    Grab intExt scenarioLoader 0 outputs0
        = .ok (true,
            ⟨img12, ⟨1, 2, [0, 255]⟩, [], IntSE3.from_matrix3x4 gwcQuarter, (3, 4, 0)⟩,
            [Event.print 0, Event.packet 0, Event.image "0.png", Event.edge "0.edge"])
      ∧ Grab intExt scenarioLoader 2 outputs0
        = .ok (true,
            ⟨img12, ⟨0, 0, []⟩, [], IntSE3.from_matrix3x4 gwcQuarter, (3, 4, 0)⟩,
            [Event.print 2, Event.packet 2, Event.image "2.png"]) :=
  have h := Grab_scenario intExt scenarioLoader (packetOf 1) (packetOf 2) (packetOf 3)
    "0.png" "1.png" "2.png" "0.edge" outputs0 rfl rfl rfl rfl rfl
  ⟨h.1, h.2.2.1⟩

/-- C5, as stated, fails: a parsed record with `rows = 1`, `cols = 1` and a buffer of two
floats has `rows * cols` different from the buffer length, yet `LoadEdgeMap` returns true
and turns it into a 1x1 image. -/
theorem LoadEdgeMap_mismatch_accepted :
    (intExt.parseEdgeMap "long.edge").rows * (intExt.parseEdgeMap "long.edge").cols
        ≠ (intExt.parseEdgeMap "long.edge").data.length
      ∧ LoadEdgeMap intExt "long.edge" ⟨0, 0, []⟩ = .ok (true, ⟨1, 1, [255]⟩) :=
  ⟨by decide, rfl⟩

/-- C5, amended: `LoadEdgeMap` compares nothing; for every parsed record whose buffer
holds at least `rows * cols` floats, equal or longer, it returns true and stores the
`rows` by `cols` 8-bit image converted from the first `rows * cols` floats. -/
theorem LoadEdgeMap_of_le {F SE3 SO3 B : Type} (E : Ext F SE3 SO3 B) (filename : String)
    (edge : Mat8)
    (h : (E.parseEdgeMap filename).rows * (E.parseEdgeMap filename).cols
          ≤ (E.parseEdgeMap filename).data.length) :
    LoadEdgeMap E filename edge = .ok (true, edgeToMat8 E (E.parseEdgeMap filename))
      ∧ (edgeToMat8 E (E.parseEdgeMap filename)).rows = (E.parseEdgeMap filename).rows
      ∧ (edgeToMat8 E (E.parseEdgeMap filename)).cols = (E.parseEdgeMap filename).cols
      ∧ (edgeToMat8 E (E.parseEdgeMap filename)).data
          = ((E.parseEdgeMap filename).data.take
              ((E.parseEdgeMap filename).rows * (E.parseEdgeMap filename).cols)).map E.to8U
      ∧ (edgeToMat8 E (E.parseEdgeMap filename)).data.length
          = (E.parseEdgeMap filename).rows * (E.parseEdgeMap filename).cols := by
  refine ⟨by simp [LoadEdgeMap, h], rfl, rfl, rfl, ?_⟩
  simp [edgeToMat8, h]

theorem LoadEdgeMap_of_le_witness :
    LoadEdgeMap intExt "0.edge" ⟨0, 0, []⟩ = .ok (true, ⟨1, 2, [0, 255]⟩) :=
  (LoadEdgeMap_of_le intExt "0.edge" ⟨0, 0, []⟩ (by decide)).1

/-- C6: for every packet the log holds at ordinal `i`, `GrabSparseDepth` returns a map
whose keys are exactly the ids of the features with status INSTATE or GOODDROP, and the
entry of each id is (px, py, z) of the last qualifying observation of that id in packet
order: its recorded pixel coordinate and the third component of the inverse pose applied
to its world position. -/
theorem GrabSparseDepth_last_qualifying {F SE3 SO3 B : Type} (E : Ext F SE3 SO3 B)
    (L : VlslamDatasetLoader F) (i : Int) (packet : Packet F)
    (hp : L.mutable_packets i = .ok packet) :
    ∃ m, GrabSparseDepth E L i = .ok m
      ∧ (∀ id, id ∈ unordered_map.keys m
            ↔ ∃ f ∈ packet.features,
                (f.status = Feature_Status.INSTATE ∨ f.status = Feature_Status.GOODDROP)
                  ∧ f.id = id)
      ∧ (∀ id, unordered_map.find m id
            = (lastQualifying packet.features id).map (depthRecord E packet)) := by
  refine ⟨packet.features.foldl
      (sparseDepthStep E (E.inv (E.from_matrix3x4 packet.gwc))) [],
    by simp [GrabSparseDepth, hp], ?_, ?_⟩
  · intro id
    rw [unordered_map.mem_keys_iff, sparseDepth_foldl]
    simp only [unordered_map.find, Option.or_none, Option.isSome_map']
    rw [lastQualifying_isSome_iff]
    constructor
    · rintro ⟨f, hf, hq, hid⟩
      exact ⟨f, hf, (qualifying_iff f).1 hq, hid⟩
    · rintro ⟨f, hf, hq, hid⟩
      exact ⟨f, hf, (qualifying_iff f).2 hq, hid⟩
  · intro id
    rw [sparseDepth_foldl]
    simp only [unordered_map.find, Option.or_none]
    rfl

theorem GrabSparseDepth_last_qualifying_witness :
    ∃ m, GrabSparseDepth intExt loader42 0 = .ok m
      ∧ (∀ id, id ∈ unordered_map.keys m
            ↔ ∃ f ∈ packet42.features,
                (f.status = Feature_Status.INSTATE ∨ f.status = Feature_Status.GOODDROP)
                  ∧ f.id = id)
      ∧ (∀ id, unordered_map.find m id
            = (lastQualifying packet42.features id).map (depthRecord intExt packet42)) :=
  GrabSparseDepth_last_qualifying intExt loader42 0 packet42 rfl

/-- C7: for every packet the log holds at ordinal `i` and every image that contains the
pixel of each qualifying observation, `GrabPointCloud` returns a map whose keys are
exactly the ids of the features with status INSTATE or GOODDROP, and the world position
stored for each id is that of the last qualifying observation of that id in packet
order. -/
theorem GrabPointCloud_keys_and_position {F SE3 SO3 B : Type} (E : Ext F SE3 SO3 B)
    (L : VlslamDatasetLoader F) (i : Int) (img : Image) (packet : Packet F)
    (hp : L.mutable_packets i = .ok packet)
    (hin : ∀ f ∈ packet.features, qualifying f = true →
      (img.atVec3b (E.toInt f.xp.2) (E.toInt f.xp.1)).isSome = true) :
    ∃ m, GrabPointCloud E L i img = .ok m
      ∧ (∀ id, id ∈ unordered_map.keys m
            ↔ ∃ f ∈ packet.features,
                (f.status = Feature_Status.INSTATE ∨ f.status = Feature_Status.GOODDROP)
                  ∧ f.id = id)
      ∧ (∀ id, (unordered_map.find m id).map (fun r => r.xw)
            = (lastQualifying packet.features id).map (fun f => f.xw)) := by
  obtain ⟨m, hm, hx, _, _⟩ := pointCloudLoop_ok E img packet.features [] hin
  have hx2 : ∀ id, (unordered_map.find m id).map (fun r => r.xw)
      = (lastQualifying packet.features id).map (fun f => f.xw) := by
    intro id
    rw [hx id]
    simp [unordered_map.find]
  refine ⟨m, by simp [GrabPointCloud, hp, hm], ?_, hx2⟩
  intro id
  rw [unordered_map.mem_keys_iff]
  have e1 : (unordered_map.find m id).isSome
      = ((unordered_map.find m id).map (fun r => r.xw)).isSome := by simp
  rw [e1, hx2 id, Option.isSome_map', lastQualifying_isSome_iff]
  constructor
  · rintro ⟨f, hf, hq, hid⟩
    exact ⟨f, hf, (qualifying_iff f).1 hq, hid⟩
  · rintro ⟨f, hf, hq, hid⟩
    exact ⟨f, hf, (qualifying_iff f).2 hq, hid⟩

theorem GrabPointCloud_keys_and_position_witness :
    ∃ m, GrabPointCloud intExt loader42 0 img12 = .ok m
      ∧ (∀ id, id ∈ unordered_map.keys m
            ↔ ∃ f ∈ packet42.features,
                (f.status = Feature_Status.INSTATE ∨ f.status = Feature_Status.GOODDROP)
                  ∧ f.id = id)
      ∧ (∀ id, (unordered_map.find m id).map (fun r => r.xw)
            = (lastQualifying packet42.features id).map (fun f => f.xw)) :=
  GrabPointCloud_keys_and_position intExt loader42 0 img12 packet42 rfl (by decide)

/-- C8, as stated, fails: `Grab` tests the ordinal against the number of image paths, so
on a loader with 2 images and 1 packet `Grab(1)` fetches packet 1 past the end of the
log; `GrabPointCloud` and `GrabSparseDepth` test nothing and fetch packet 1, or packet
-1, of a one-packet log. -/
theorem packet_lookup_unguarded :
    Grab intExt shortLogLoader 1 outputs0 = .error .packetIndex
      ∧ GrabPointCloud intExt loader42 1 img12 = .error .packetIndex
      ∧ GrabSparseDepth intExt loader42 (-1) = .error .packetIndex :=
  ⟨rfl, rfl, rfl⟩

/-- C8, amended: `Grab` fetches packet `i` only after `0 <= i < size_` (the number of
image paths) has been checked, so its fetch leaves the log exactly when
`packets <= i < size_`, and never when the log holds at least `size_` packets;
`GrabPointCloud` and `GrabSparseDepth` fetch packet `i` unchecked, and their fetch is
inside the log exactly when `0 <= i < packets`. -/
theorem packet_lookup_guards {F SE3 SO3 B : Type} (E : Ext F SE3 SO3 B)
    (L : VlslamDatasetLoader F) (i : Int) :
    (∀ o, Grab E L i o = .error .packetIndex
        ↔ (0 ≤ i ∧ i < L.size_ ∧ (L.dataset_.length : Int) ≤ i))
      ∧ (L.size_ ≤ L.dataset_.length → ∀ o, Grab E L i o ≠ .error .packetIndex)
      ∧ (∀ img, GrabPointCloud E L i img = .error .packetIndex
          ↔ ¬ (0 ≤ i ∧ i < L.dataset_.length))
      ∧ (GrabSparseDepth E L i = .error .packetIndex
          ↔ ¬ (0 ≤ i ∧ i < L.dataset_.length)) := by
  refine ⟨fun o => Grab_packet_error_iff E L i o, ?_,
    fun img => GrabPointCloud_packet_error_iff E L i img,
    GrabSparseDepth_packet_error_iff E L i⟩
  intro hle o h
  have := (Grab_packet_error_iff E L i o).1 h
  omega

theorem packet_lookup_guards_witness :
    scenarioLoader.size_ ≤ scenarioLoader.dataset_.length
      ∧ Grab intExt scenarioLoader 7 outputs0 ≠ .error .packetIndex :=
  ⟨by decide,
    (packet_lookup_guards intExt scenarioLoader 7).2.1 (by decide) outputs0⟩

/-- C9, evaluated on the code: the check takes the five characters from the first '.'.
A name without '.' makes `substr` throw `std::out_of_range` instead of failing the
check, the name `a.b.json` ends in `.json` and is rejected, and the name `a.jsonx` does
not end in `.json` and is accepted. -/
theorem checkCatJson_not_suffix_test :
    checkCatJson "mesh" = .error .substrOutOfRange
      ∧ checkCatJson "a.b.json" = .error .checkStreq
      ∧ checkCatJson "a.jsonx" = .ok ()
      ∧ LoadMeshDatabase intExt "root" "mesh" = .error .substrOutOfRange :=
  ⟨rfl, rfl, rfl, rfl⟩

/-- C10, as stated, fails: each call starts from an empty map.  On a loader whose frame
0 observes landmark 1 and whose frame 1 observes landmark 2, the cloud of frame 0 holds
id 1 and the cloud of the later frame 1 holds id 2 only. -/
theorem GrabPointCloud_ids_not_kept_across_calls :
    (GrabPointCloud intExt twoFrameLoader 0 img12).map unordered_map.keys = .ok [1]
      ∧ (GrabPointCloud intExt twoFrameLoader 1 img12).map unordered_map.keys = .ok [2]
      ∧ (1 : Int) ∉ ([2] : List Int) :=
  ⟨rfl, rfl, by decide⟩

/-- C10, amended: landmark records persist within one `GrabPointCloud` call, not across
calls.  The returned map is built from an empty one out of packet `i` and the image
alone.  After the first `n` features it holds exactly the ids of the qualifying features
among them, and every one of these ids is still present in the returned map, in which
each id occurs once.  The next feature, when it does not qualify, changes nothing; when
it qualifies, the records of the other ids are untouched, an id not yet present gets a
new record (the sampled colour as it is, the world position of the observation), and an
id already present is updated in place: no key is added, the position is overwritten
and, on each channel whose sum fits in 8 bits, the colour becomes the halved sum. -/
theorem GrabPointCloud_ids_grow_within_call {F SE3 SO3 B : Type} (E : Ext F SE3 SO3 B)
    (L : VlslamDatasetLoader F) (i : Int) (img : Image) (packet : Packet F)
    (hp : L.mutable_packets i = .ok packet)
    (hin : ∀ f ∈ packet.features, qualifying f = true →
      (img.atVec3b (E.toInt f.xp.2) (E.toInt f.xp.1)).isSome = true)
    (n : Nat) :
    ∃ m1 m2, pointCloudLoop E img (packet.features.take n) [] = .ok m1
      ∧ GrabPointCloud E L i img = .ok m2
      ∧ (∀ id, id ∈ unordered_map.keys m1
            ↔ ∃ f ∈ packet.features.take n, qualifying f = true ∧ f.id = id)
      ∧ (∀ id, id ∈ unordered_map.keys m2
            ↔ ∃ f ∈ packet.features, qualifying f = true ∧ f.id = id)
      ∧ (∀ id, id ∈ unordered_map.keys m1 → id ∈ unordered_map.keys m2)
      ∧ (unordered_map.keys m2).Nodup
      ∧ (∀ L2 : VlslamDatasetLoader F, L2.mutable_packets i = .ok packet →
            GrabPointCloud E L2 i img = .ok m2)
      ∧ (∀ f, packet.features[n]? = some f →
          ∃ m3, pointCloudLoop E img (packet.features.take (n + 1)) [] = .ok m3
            ∧ (qualifying f = false → m3 = m1)
            ∧ (qualifying f = true →
                ∀ c, img.atVec3b (E.toInt f.xp.2) (E.toInt f.xp.1) = some c →
                  (∀ id, id ≠ f.id → unordered_map.find m3 id = unordered_map.find m1 id)
                  ∧ (f.id ∉ unordered_map.keys m1 →
                      unordered_map.keys m3 = unordered_map.keys m1 ++ [f.id]
                        ∧ unordered_map.find m3 f.id = some ⟨f.xw, c⟩)
                  ∧ (∀ old, unordered_map.find m1 f.id = some old →
                      unordered_map.keys m3 = unordered_map.keys m1
                        ∧ ∃ r, unordered_map.find m3 f.id = some r ∧ r.xw = f.xw
                            ∧ (c.1 + old.color.1 ≤ 255
                                → r.color.1 = halvedSum c.1 old.color.1)
                            ∧ (c.2.1 + old.color.2.1 ≤ 255
                                → r.color.2.1 = halvedSum c.2.1 old.color.2.1)
                            ∧ (c.2.2 + old.color.2.2 ≤ 255
                                → r.color.2.2 = halvedSum c.2.2 old.color.2.2)))) := by
  have hin1 : ∀ f ∈ packet.features.take n, qualifying f = true →
      (img.atVec3b (E.toInt f.xp.2) (E.toInt f.xp.1)).isSome = true :=
    fun f hf => hin f (List.mem_of_mem_take hf)
  have hin2 : ∀ f ∈ packet.features.drop n, qualifying f = true →
      (img.atVec3b (E.toInt f.xp.2) (E.toInt f.xp.1)).isSome = true :=
    fun f hf => hin f (List.mem_of_mem_drop hf)
  obtain ⟨m1, h1, hkeys1, _, _⟩ := pointCloudLoop_from_empty E img (packet.features.take n) hin1
  obtain ⟨m2, h2, _, hk2, _⟩ := pointCloudLoop_ok E img (packet.features.drop n) m1 hin2
  obtain ⟨m, hm, hkeys, _, hnodup⟩ := pointCloudLoop_from_empty E img packet.features hin
  have hall : pointCloudLoop E img packet.features [] = .ok m2 := by
    have := pointCloudLoop_append E img (packet.features.take n) (packet.features.drop n) []
    rw [List.take_append_drop, h1] at this
    rw [this]
    exact h2
  have hmm : m = m2 := by
    rw [hm] at hall
    cases hall
    rfl
  subst hmm
  refine ⟨m1, m, h1, by simp [GrabPointCloud, hp, hm], hkeys1, hkeys, hk2, hnodup, ?_, ?_⟩
  · intro L2 hp2
    simp [GrabPointCloud, hp2, hm]
  · intro f hf
    have hstep : pointCloudLoop E img (packet.features.take (n + 1)) []
        = pointCloudStep E img m1 f := by
      rw [List.take_succ, hf, pointCloudLoop_append, h1]
      simp only [Option.toList, pointCloudLoop]
      cases pointCloudStep E img m1 f <;> rfl
    by_cases hq : qualifying f = true
    · have hmem : f ∈ packet.features := List.getElem?_mem hf
      obtain ⟨c, hc⟩ := Option.isSome_iff_exists.1 (hin f hmem hq)
      obtain ⟨m3, hs, ho, hcr, hup⟩ := pointCloudStep_effect E img m1 f c hq hc
      refine ⟨m3, by rw [hstep, hs], fun h => by simp [hq] at h, ?_⟩
      intro _ c2 hc2
      rw [hc] at hc2
      cases hc2
      exact ⟨ho, hcr, hup⟩
    · refine ⟨m1, by rw [hstep, pointCloudStep_of_not_qualifying E img m1 f hq],
        fun _ => rfl, fun h => absurd h hq⟩

theorem GrabPointCloud_ids_grow_within_call_witness :
    ∃ m1 m2, pointCloudLoop intExt imgLow (packet42.features.take 2) [] = .ok m1
      ∧ GrabPointCloud intExt loader42 0 imgLow = .ok m2
      ∧ (∀ id, id ∈ unordered_map.keys m1
            ↔ ∃ f ∈ packet42.features.take 2, qualifying f = true ∧ f.id = id)
      ∧ (∀ id, id ∈ unordered_map.keys m2
            ↔ ∃ f ∈ packet42.features, qualifying f = true ∧ f.id = id)
      ∧ (∀ id, id ∈ unordered_map.keys m1 → id ∈ unordered_map.keys m2)
      ∧ (unordered_map.keys m2).Nodup
      ∧ (∀ L2 : VlslamDatasetLoader Int, L2.mutable_packets 0 = .ok packet42 →
            GrabPointCloud intExt L2 0 imgLow = .ok m2)
      ∧ (∀ f, packet42.features[2]? = some f →
          ∃ m3, pointCloudLoop intExt imgLow (packet42.features.take (2 + 1)) [] = .ok m3
            ∧ (qualifying f = false → m3 = m1)
            ∧ (qualifying f = true →
                ∀ c, imgLow.atVec3b (intExt.toInt f.xp.2) (intExt.toInt f.xp.1) = some c →
                  (∀ id, id ≠ f.id → unordered_map.find m3 id = unordered_map.find m1 id)
                  ∧ (f.id ∉ unordered_map.keys m1 →
                      unordered_map.keys m3 = unordered_map.keys m1 ++ [f.id]
                        ∧ unordered_map.find m3 f.id = some ⟨f.xw, c⟩)
                  ∧ (∀ old, unordered_map.find m1 f.id = some old →
                      unordered_map.keys m3 = unordered_map.keys m1
                        ∧ ∃ r, unordered_map.find m3 f.id = some r ∧ r.xw = f.xw
                            ∧ (c.1 + old.color.1 ≤ 255
                                → r.color.1 = halvedSum c.1 old.color.1)
                            ∧ (c.2.1 + old.color.2.1 ≤ 255
                                → r.color.2.1 = halvedSum c.2.1 old.color.2.1)
                            ∧ (c.2.2 + old.color.2.2 ≤ 255
                                → r.color.2.2 = halvedSum c.2.2 old.color.2.2)))) :=
  GrabPointCloud_ids_grow_within_call intExt loader42 0 imgLow packet42 rfl (by decide) 2

end feh
